import Mathlib

set_option maxHeartbeats 1000000

/-! Verification development for the Animaflow raster animation editor.

This file gives a shallow embedding of the core of the program:
the flood fill and spline rasterizer of src/engine/BrushEngine.ts, the
persistence layer of src/engine/StorageManager.ts, the playback scheduler of
src/engine/AnimationLoop.ts, and the frame-list and undo/redo logic of
src/App.tsx.  Machine numbers of the source are modelled by exact rationals
and naturals; IndexedDB object stores by keyed association lists; the 2D
canvas context by a recorded command trace.  Definitions come first,
theorems afterwards. -/

/-- RGBA pixel value: the four byte components stored per pixel of ImageData,
    in the order (r, g, b, a). -/
abbrev RGBA : Type := ℕ × ℕ × ℕ × ℕ

/-- Parsed rgb color, as returned by hexToRgb. -/
structure RGB where
  r : ℕ
  g : ℕ
  b : ℕ
deriving DecidableEq

/-- Character class [a-f\d] of the hexToRgb regex, with the i flag. -/
def isHexDigitChar (c : Char) : Bool :=
  (decide ('0' ≤ c) && decide (c ≤ '9')) ||
  (decide ('a' ≤ c) && decide (c ≤ 'f')) ||
  (decide ('A' ≤ c) && decide (c ≤ 'F'))

/-- Value of one hex digit, as parseInt(-, 16) assigns it. -/
def hexDigitVal (c : Char) : ℕ :=
  if '0' ≤ c ∧ c ≤ '9' then c.toNat - '0'.toNat
  else if 'a' ≤ c ∧ c ≤ 'f' then c.toNat - 'a'.toNat + 10
  else if 'A' ≤ c ∧ c ≤ 'F' then c.toNat - 'A'.toNat + 10
  else 0

/-- hexToRgb of BrushEngine.ts: the case-insensitive regex
    ^#?([a-f\d]2)([a-f\d]2)([a-f\d]2)$ (each group two characters long),
    each captured pair converted by parseInt(-, 16); null on mismatch. -/
def hexToRgb (hex : String) : Option RGB :=
  let cs := match hex.data with
    | '#' :: rest => rest
    | cs => cs
  match cs with
  | [c1, c2, c3, c4, c5, c6] =>
    if [c1, c2, c3, c4, c5, c6].all isHexDigitChar then
      some ⟨16 * hexDigitVal c1 + hexDigitVal c2,
            16 * hexDigitVal c3 + hexDigitVal c4,
            16 * hexDigitVal c5 + hexDigitVal c6⟩
    else none
  | _ => none

/-- colorsMatch of BrushEngine.ts: component-wise exact equality of two RGBA
    quadruples. -/
def colorsMatch (c1 c2 : RGBA) : Bool :=
  c1.1 == c2.1 && c1.2.1 == c2.2.1 && c1.2.2.1 == c2.2.2.1 && c1.2.2.2 == c2.2.2.2

/-- The canvas pixel grid as a finite set of (x, y) coordinates.  The flat
    RGBA byte array of ImageData is modelled as a map from pixel coordinates
    to RGBA values; every access the algorithm performs is in bounds, where
    the two representations agree. -/
def grid (w h : ℕ) : Finset (ℕ × ℕ) := Finset.range w ×ˢ Finset.range h

/-- Number of grid pixels whose current color exactly matches the target
    color.  This is the flood-fill termination measure: painting a matching
    pixel with a different color strictly decreases it. -/
def matchCount (w h : ℕ) (target : RGBA) (img : ℕ × ℕ → RGBA) : ℕ :=
  ((grid w h).filter (fun p => img p = target)).card

/-- Overwriting the four data bytes of pixel p with color c. -/
def setPix (img : ℕ × ℕ → RGBA) (p : ℕ × ℕ) (c : RGBA) : ℕ × ℕ → RGBA :=
  fun q => if q = p then c else img q

/-- The explicit stack loop of floodFill (BrushEngine.ts, the while loop).
    The stack is a list whose head is the top, i.e. the last element pushed
    onto the JS array; each iteration pops one coordinate, skips it when it
    is out of canvas bounds or its color does not exactly match the original
    target color, and otherwise overwrites it with the fill color and pushes
    its four axis neighbors (so that the pop order matches the JS array:
    [x, y - 1] was pushed last and is popped first).  Painted pixels are
    recorded, most recent first, in trace.  The hypothesis hne mirrors the
    early return of floodFill: the loop only runs when the target color
    differs from the opaque fill color, which is exactly what bounds the
    number of repaints and makes the loop terminate. -/
def fillLoop (w h : ℕ) (target fill : RGBA) (hne : target ≠ fill)
    (stack : List (ℤ × ℤ)) (img : ℕ × ℕ → RGBA) (trace : List (ℕ × ℕ)) :
    (ℕ × ℕ → RGBA) × List (ℕ × ℕ) :=
  match stack with
  | [] => (img, trace)
  | (x, y) :: rest =>
    if x < 0 ∨ (w : ℤ) ≤ x ∨ y < 0 ∨ (h : ℤ) ≤ y then
      fillLoop w h target fill hne rest img trace
    else if hcol : colorsMatch (img (x.toNat, y.toNat)) target = false then
      fillLoop w h target fill hne rest img trace
    else
      fillLoop w h target fill hne
        ((x, y - 1) :: (x, y + 1) :: (x - 1, y) :: (x + 1, y) :: rest)
        (setPix img (x.toNat, y.toNat) fill)
        ((x.toNat, y.toNat) :: trace)
termination_by (matchCount w h target img, stack.length)
decreasing_by
· apply Prod.Lex.right
  simp
· apply Prod.Lex.right
  simp
· apply Prod.Lex.left
  have hmem : (x.toNat, y.toNat) ∈ grid w h := by
    rename_i hoob
    simp only [grid, Finset.mem_product, Finset.mem_range]
    omega
  have hcolT : img (x.toNat, y.toNat) = target := by
    have hb : colorsMatch (img (x.toNat, y.toNat)) target = true := by
      revert hcol
      cases colorsMatch (img (x.toNat, y.toNat)) target <;> simp
    simp only [colorsMatch, Bool.and_eq_true, beq_iff_eq] at hb
    obtain ⟨⟨⟨h1, h2⟩, h3⟩, h4⟩ := hb
    exact Prod.ext h1 (Prod.ext h2 (Prod.ext h3 h4))
  apply Finset.card_lt_card
  constructor
  · intro q hq
    simp only [Finset.mem_filter] at hq ⊢
    refine ⟨hq.1, ?_⟩
    obtain ⟨-, hqc⟩ := hq
    by_cases hqp : q = (x.toNat, y.toNat)
    · rw [hqp] at hqc
      simp only [setPix, if_pos rfl] at hqc
      exact absurd hqc.symm hne
    · simpa [setPix, hqp] using hqc
  · intro hsub
    have h1 : (x.toNat, y.toNat) ∈ (grid w h).filter (fun p => img p = target) := by
      simp only [Finset.mem_filter]
      exact ⟨hmem, hcolT⟩
    have h2 := hsub h1
    simp only [Finset.mem_filter, setPix, if_pos rfl] at h2
    exact hne h2.2.symm

/-- floodFill of BrushEngine.ts: read the target color at the seed
    coordinate, parse the fill color (no-op when unparseable), no-op when the
    target already equals the fully opaque fill color, and otherwise run the
    stack loop seeded with the start coordinate.  Returns the final image
    together with the list of painted pixels. -/
def floodFill (w h : ℕ) (img : ℕ × ℕ → RGBA) (startX startY : ℤ)
    (fillColor : String) : (ℕ × ℕ → RGBA) × List (ℕ × ℕ) :=
  let targetColor := img (startX.toNat, startY.toNat)
  match hexToRgb fillColor with
  | none => (img, [])
  | some rgb =>
    if hm : colorsMatch targetColor (rgb.r, rgb.g, rgb.b, 255) = true then
      (img, [])
    else
      fillLoop w h targetColor (rgb.r, rgb.g, rgb.b, 255)
        (by intro he; apply hm; simp [colorsMatch, he])
        [(startX, startY)] img []

/-- In-bounds predicate for a pixel coordinate. -/
def inGrid (w h : ℕ) (p : ℕ × ℕ) : Prop := p.1 < w ∧ p.2 < h

/-- 4-connected axis adjacency of two pixel coordinates. -/
def adj (p q : ℕ × ℕ) : Prop :=
  (q.1 = p.1 + 1 ∧ q.2 = p.2) ∨ (p.1 = q.1 + 1 ∧ q.2 = p.2) ∨
  (q.1 = p.1 ∧ q.2 = p.2 + 1) ∨ (q.1 = p.1 ∧ p.2 = q.2 + 1)

/-- Reach w h img target seed p : pixel p belongs to the 4-connected region
    of pixels of color target that contains the seed (every pixel on a
    connecting path lies in bounds and has exactly the color target). -/
inductive Reach (w h : ℕ) (img : ℕ × ℕ → RGBA) (target : RGBA)
    (seed : ℕ × ℕ) : ℕ × ℕ → Prop where
  | base : inGrid w h seed → img seed = target → Reach w h img target seed seed
  | step {a b : ℕ × ℕ} : Reach w h img target seed a → adj a b →
      inGrid w h b → img b = target → Reach w h img target seed b

/-- Loop invariant of fillLoop, relating the current stack, image and paint
    trace to the original image img0 and the seed's connected region. -/
structure FillInv (w h : ℕ) (img0 : ℕ × ℕ → RGBA) (target fill : RGBA)
    (seed : ℕ × ℕ) (stack : List (ℤ × ℤ)) (img : ℕ × ℕ → RGBA)
    (trace : List (ℕ × ℕ)) : Prop where
  himg : ∀ p, img p = if p ∈ trace then fill else img0 p
  htrace : ∀ p ∈ trace, Reach w h img0 target seed p
  hstack : ∀ c ∈ stack, 0 ≤ c.1 → c.1 < (w : ℤ) → 0 ≤ c.2 → c.2 < (h : ℤ) →
      img0 (c.1.toNat, c.2.toNat) = target →
      Reach w h img0 target seed (c.1.toNat, c.2.toNat)
  hseed : seed ∈ trace ∨ ((seed.1 : ℤ), (seed.2 : ℤ)) ∈ stack
  hfront : ∀ a ∈ trace, ∀ b : ℕ × ℕ, adj a b → inGrid w h b →
      img0 b = target → b ∈ trace ∨ ((b.1 : ℤ), (b.2 : ℤ)) ∈ stack

/-- ToolType of engine/types.ts. -/
inductive ToolType where
  | Brush
  | Eraser
  | Select
  | Fill
deriving DecidableEq

/-- Point of engine/types.ts: one pointer sample. -/
structure Point where
  x : ℚ
  y : ℚ
  pressure : ℚ
  tiltX : ℚ
  tiltY : ℚ
  timestamp : ℚ
deriving DecidableEq

/-- BrushSettings of engine/types.ts. -/
structure BrushSettings where
  tool : ToolType
  size : ℚ
  color : String
  opacity : ℚ
  smoothing : ℚ
deriving DecidableEq

/-- A JS number as the spline code manipulates it: either a finite value
    (modelled exactly as a rational) or the single non-finite marker nan.
    In the source every non-finite value that can arise does so as IEEE NaN
    through a 0/0 division (the inputs our theorems evaluate never produce
    an infinity), so the marker is collapsed to one constructor. -/
inductive JNum where
  | fin (q : ℚ)
  | nan
deriving DecidableEq

/-- Addition with NaN propagation. -/
def JNum.add : JNum → JNum → JNum
  | .fin a, .fin b => .fin (a + b)
  | _, _ => .nan

/-- Subtraction with NaN propagation. -/
def JNum.sub : JNum → JNum → JNum
  | .fin a, .fin b => .fin (a - b)
  | _, _ => .nan

/-- Multiplication with NaN propagation. -/
def JNum.mul : JNum → JNum → JNum
  | .fin a, .fin b => .fin (a * b)
  | _, _ => .nan

/-- Division: 0/0 is IEEE NaN, and any division by zero is mapped to the
    non-finite marker (a finite numerator over zero is an infinity in JS;
    that case is never exercised by the theorems below). -/
def JNum.div : JNum → JNum → JNum
  | .fin a, .fin b => if b = 0 then .nan else .fin (a / b)
  | _, _ => .nan

instance : Add JNum := ⟨JNum.add⟩

instance : Sub JNum := ⟨JNum.sub⟩

instance : Mul JNum := ⟨JNum.mul⟩

instance : Div JNum := ⟨JNum.div⟩

/-- Exact rational square root: precise whenever the argument is a ratio of
    perfect squares, which covers every input the theorems below evaluate
    it on (floating-point Math.pow is itself approximate on all others). -/
def ratSqrt (q : ℚ) : ℚ := (Nat.sqrt q.num.toNat : ℚ) / (Nat.sqrt q.den : ℚ)

/-- Math.pow restricted to the two exponents drawSpline uses: 2 squares the
    base, 0.5 takes the square root (NaN on a negative base, as in IEEE);
    other exponents do not occur in the source and map to the marker. -/
def jsPow : JNum → JNum → JNum
  | .fin a, .fin b =>
    if b = 2 then .fin (a * a)
    else if b = 1 / 2 then (if 0 ≤ a then .fin (ratSqrt a) else .nan)
    else .nan
  | _, _ => .nan

/-- getT of drawSpline (BrushEngine.ts): the centripetal Catmull-Rom knot
    update, d = pow(pow(dx, 2) + pow(dy, 2), 0.5) and the result
    pow(d, alpha) + t with alpha = 0.5. -/
def getT (t : JNum) (pA pB : Point) : JNum :=
  let d := jsPow (jsPow (JNum.fin pB.x - JNum.fin pA.x) (JNum.fin 2) +
                  jsPow (JNum.fin pB.y - JNum.fin pA.y) (JNum.fin 2))
             (JNum.fin (1 / 2))
  jsPow d (JNum.fin (1 / 2)) + t

/-- One iteration of the drawSpline evaluation loop: the parameter t, the
    two-level barycentric blend a1..a3, b1, b2, c, and the interpolated
    pressure, exactly as computed in the loop body.  Returns (cx, cy,
    pressure). -/
def splinePoint (p0 p1 p2 p3 : Point) (t0 t1 t2 t3 : JNum) (steps : ℕ)
    (i : ℕ) : JNum × JNum × ℚ :=
  let t := t1 + JNum.fin ((i : ℚ) / (steps : ℚ)) * (t2 - t1)
  let a1x := (t1 - t) / (t1 - t0) * JNum.fin p0.x + (t - t0) / (t1 - t0) * JNum.fin p1.x
  let a1y := (t1 - t) / (t1 - t0) * JNum.fin p0.y + (t - t0) / (t1 - t0) * JNum.fin p1.y
  let a2x := (t2 - t) / (t2 - t1) * JNum.fin p1.x + (t - t1) / (t2 - t1) * JNum.fin p2.x
  let a2y := (t2 - t) / (t2 - t1) * JNum.fin p1.y + (t - t1) / (t2 - t1) * JNum.fin p2.y
  let a3x := (t3 - t) / (t3 - t2) * JNum.fin p2.x + (t - t2) / (t3 - t2) * JNum.fin p3.x
  let a3y := (t3 - t) / (t3 - t2) * JNum.fin p2.y + (t - t2) / (t3 - t2) * JNum.fin p3.y
  let b1x := (t2 - t) / (t2 - t0) * a1x + (t - t0) / (t2 - t0) * a2x
  let b1y := (t2 - t) / (t2 - t0) * a1y + (t - t0) / (t2 - t0) * a2y
  let b2x := (t3 - t) / (t3 - t1) * a2x + (t - t1) / (t3 - t1) * a3x
  let b2y := (t3 - t) / (t3 - t1) * a2y + (t - t1) / (t3 - t1) * a3y
  let cx := (t2 - t) / (t2 - t1) * b1x + (t - t1) / (t2 - t1) * b2x
  let cy := (t2 - t) / (t2 - t1) * b1y + (t - t1) / (t2 - t1) * b2y
  let pressure := p1.pressure + (i : ℚ) / (steps : ℚ) * (p2.pressure - p1.pressure)
  (cx, cy, pressure)

/-- Commands issued to the 2D canvas context, in issue order. -/
inductive CanvasCmd where
  | beginPath
  | setLineCap (cap : String)
  | setLineJoin (join : String)
  | setStrokeStyle (style : String)
  | setLineWidth (wd : JNum)
  | moveTo (x y : JNum)
  | lineTo (x y : JNum)
  | stroke
deriving DecidableEq

/-- drawSpline of BrushEngine.ts, recorded as its trace of context commands:
    one beginPath, cap/join/style setup, then for i = 0..steps (steps = 10)
    a lineWidth assignment (size times the pressure interpolated between p1
    and p2) followed by moveTo (i = 0) or lineTo (i > 0) of the blended
    curve point, and finally one single stroke() call after the loop.  The
    arguments p0..p3 are the four most recent samples of the stroke. -/
def drawSpline (p0 p1 p2 p3 : Point) (settings : BrushSettings) :
    List CanvasCmd :=
  let t0 : JNum := JNum.fin 0
  let t1 := getT t0 p0 p1
  let t2 := getT t1 p1 p2
  let t3 := getT t2 p2 p3
  let steps : ℕ := 10
  [CanvasCmd.beginPath, CanvasCmd.setLineCap ("round"),
   CanvasCmd.setLineJoin ("round"), CanvasCmd.setStrokeStyle settings.color] ++
  (List.range (steps + 1)).flatMap (fun i =>
    let r := splinePoint p0 p1 p2 p3 t0 t1 t2 t3 steps i
    [CanvasCmd.setLineWidth (JNum.fin (settings.size * r.2.2)),
     if i = 0 then CanvasCmd.moveTo r.1 r.2.1 else CanvasCmd.lineTo r.1 r.2.1]) ++
  [CanvasCmd.stroke]

/-- The 2D context state the recorded commands interact with. -/
structure CanvasState where
  lineWidth : JNum
  lineCap : String
  lineJoin : String
  strokeStyle : String
  path : List (JNum × JNum)
deriving DecidableEq

/-- One stroke() call as actually rendered: the line width, cap, join and
    style in effect at the moment of the call, and the path points stroked. -/
structure StrokeEvt where
  width : JNum
  cap : String
  join : String
  style : String
  path : List (JNum × JNum)
deriving DecidableEq

/-- Canvas 2D semantics of the recorded commands: path-building commands
    accumulate points, state assignments replace the current value, and
    stroke() emits one event carrying the state in effect at that moment
    (the context samples lineWidth when stroke() runs, not when the path
    segments were added). -/
def interp : CanvasState → List CanvasCmd → List StrokeEvt
  | _, [] => []
  | st, CanvasCmd.beginPath :: cs => interp { st with path := [] } cs
  | st, CanvasCmd.setLineCap c :: cs => interp { st with lineCap := c } cs
  | st, CanvasCmd.setLineJoin j :: cs => interp { st with lineJoin := j } cs
  | st, CanvasCmd.setStrokeStyle s :: cs => interp { st with strokeStyle := s } cs
  | st, CanvasCmd.setLineWidth wd :: cs => interp { st with lineWidth := wd } cs
  | st, CanvasCmd.moveTo x y :: cs => interp { st with path := st.path ++ [(x, y)] } cs
  | st, CanvasCmd.lineTo x y :: cs => interp { st with path := st.path ++ [(x, y)] } cs
  | st, CanvasCmd.stroke :: cs =>
    ⟨st.lineWidth, st.lineCap, st.lineJoin, st.strokeStyle, st.path⟩ :: interp st cs

/-- A fresh 2D context in its default state. -/
def initCanvas : CanvasState := ⟨JNum.fin 1, "butt", "miter", "#000000", []⟩

/-- Encoded layer raster blob (the PNG bytes toBlob produces), modelled as an
    abstract byte list compared bit-for-bit. -/
abbrev Blob : Type := List ℕ

/-- LayerType of engine/types.ts: the three fixed layer roles. -/
inductive LayerType where
  | Background
  | Lineart
  | Color
deriving DecidableEq

/-- The three layer ids of a frame, one per fixed role (the object
    frame.layers of engine/types.ts). -/
structure LayerIds where
  background : String
  lineart : String
  color : String
deriving DecidableEq

/-- Selecting a layer id by role. -/
def LayerIds.get (l : LayerIds) : LayerType → String
  | LayerType.Background => l.background
  | LayerType.Lineart => l.lineart
  | LayerType.Color => l.color

/-- Frame of engine/types.ts: id, ordinal index and the three layer ids. -/
structure Frame where
  id : String
  index : ℕ
  layers : LayerIds
deriving DecidableEq

/-- Lookup in a keyed collection (an IndexedDB object store modelled as an
    association list): the value stored under k, or none. -/
def getAL {α : Type} (l : List (String × α)) (k : String) : Option α :=
  (l.find? (fun kv => kv.1 == k)).map (fun kv => kv.2)

/-- put of a keyed collection: overwrites the value under an existing key,
    otherwise adds the entry. -/
def putAL {α : Type} (l : List (String × α)) (k : String) (v : α) :
    List (String × α) :=
  if l.any (fun kv => kv.1 == k) then
    l.map (fun kv => if kv.1 == k then (k, v) else kv)
  else l ++ [(k, v)]

/-- delete of a keyed collection: removes the entry under k (a no-op when
    the key is absent, as in IndexedDB). -/
def delAL {α : Type} (l : List (String × α)) (k : String) :
    List (String × α) :=
  l.filter (fun kv => !(kv.1 == k))

/-- The two object stores AnimaFlowDB holds after onupgradeneeded: layers
    (key = layer id, value = blob) and frames (keyPath id, value = frame
    record). -/
structure Store where
  layers : List (String × Blob)
  frames : List (String × Frame)
deriving DecidableEq

/-- StorageManager of engine/StorageManager.ts: this.db is null until init
    succeeds. -/
structure StorageManager where
  db : Option Store
deriving DecidableEq

/-- The error message every operation throws before init. -/
def dbNotInit : String := "DB not initialized"

/-- saveLayer: put(blob, id) in one readwrite transaction on layers; throws
    before init.  Each operation returns its result (or the thrown error)
    together with the store state after the call. -/
def StorageManager.saveLayer (sm : StorageManager) (id : String) (b : Blob) :
    Except String Unit × StorageManager :=
  match sm.db with
  | none => (Except.error dbNotInit, sm)
  | some db => (Except.ok (), ⟨some { db with layers := putAL db.layers id b }⟩)

/-- getLayer: get(id) on layers, resolving request.result or null; throws
    before init. -/
def StorageManager.getLayer (sm : StorageManager) (id : String) :
    Except String (Option Blob) × StorageManager :=
  match sm.db with
  | none => (Except.error dbNotInit, sm)
  | some db => (Except.ok (getAL db.layers id), sm)

/-- deleteLayer: throws before init, silently returns on an empty (falsy)
    id, otherwise delete(id) on layers. -/
def StorageManager.deleteLayer (sm : StorageManager) (id : String) :
    Except String Unit × StorageManager :=
  match sm.db with
  | none => (Except.error dbNotInit, sm)
  | some db =>
    if id = "" then (Except.ok (), sm)
    else (Except.ok (), ⟨some { db with layers := delAL db.layers id }⟩)

/-- copyLayer: await getLayer(sourceId), and only when a blob came back,
    await saveLayer(destId, blob); errors of either step propagate. -/
def StorageManager.copyLayer (sm : StorageManager) (sourceId destId : String) :
    Except String Unit × StorageManager :=
  match sm.getLayer sourceId with
  | (Except.error e, sm') => (Except.error e, sm')
  | (Except.ok none, sm') => (Except.ok (), sm')
  | (Except.ok (some b), sm') => sm'.saveLayer destId b

/-- saveFrame: put(frame) on the frames store (keyPath id); throws before
    init. -/
def StorageManager.saveFrame (sm : StorageManager) (frame : Frame) :
    Except String Unit × StorageManager :=
  match sm.db with
  | none => (Except.error dbNotInit, sm)
  | some db => (Except.ok (), ⟨some { db with frames := putAL db.frames frame.id frame }⟩)

/-- getAllFrames: getAll() on the frames store; throws before init. -/
def StorageManager.getAllFrames (sm : StorageManager) :
    Except String (List Frame) × StorageManager :=
  match sm.db with
  | none => (Except.error dbNotInit, sm)
  | some db => (Except.ok (db.frames.map (fun kv => kv.2)), sm)

/-- The App state the frame operations of src/App.tsx manipulate: the React
    frames list, the current frame index, the storage manager, and a counter
    backing fresh id generation (crypto.randomUUID is determinized as a
    counter that never repeats an id). -/
structure AppState where
  frames : List Frame
  currentFrameIndex : ℕ
  nextId : ℕ
  storage : StorageManager
deriving DecidableEq

/-- One fresh id as produced by the determinized crypto.randomUUID. -/
def uuid (n : ℕ) : String := "id-" ++ toString n

/-- createNewFrame of App.tsx: a fresh frame id, the given index, and three
    fresh layer ids; returns the frame and the advanced id counter. -/
def createNewFrame (gen : ℕ) (index : ℕ) : Frame × ℕ :=
  (⟨uuid gen, index, ⟨uuid (gen + 1), uuid (gen + 2), uuid (gen + 3)⟩⟩, gen + 4)

/-- addFrame of App.tsx: create a frame at index frames.length, append it,
    save its record, and select it.  When the save throws, the statements
    after the await (the index selection) do not run. -/
def addFrame (st : AppState) : AppState :=
  let fr := createNewFrame st.nextId st.frames.length
  let newFrames := st.frames ++ [fr.1]
  let st1 : AppState := { st with frames := newFrames, nextId := fr.2 }
  match st1.storage.saveFrame fr.1 with
  | (Except.error _, sm) => { st1 with storage := sm }
  | (Except.ok _, sm) =>
    { st1 with storage := sm, currentFrameIndex := newFrames.length - 1 }

/-- Reindexing map of App.tsx: frames.map((f, i) => (... f, index: i)). -/
def reindex (l : List Frame) : List Frame :=
  l.mapIdx (fun i f => { f with index := i })

/-- duplicateFrame of App.tsx: no-op when frames[index] is undefined; else
    create a frame carrying index + 1, copy the three layer blobs in the
    store, splice the new frame in at position index + 1, reindex the whole
    list, save the new frame record and select index + 1.  An error thrown
    by an await skips everything after it. -/
def duplicateFrame (st : AppState) (index : ℕ) : AppState :=
  match st.frames.get? index with
  | none => st
  | some sourceFrame =>
    let fr := createNewFrame st.nextId (index + 1)
    let st1 : AppState := { st with nextId := fr.2 }
    match st1.storage.copyLayer (sourceFrame.layers.get LayerType.Background)
        (fr.1.layers.get LayerType.Background) with
    | (Except.error _, sm) => { st1 with storage := sm }
    | (Except.ok _, sm) =>
      match StorageManager.copyLayer ⟨sm.db⟩ (sourceFrame.layers.get LayerType.Lineart)
          (fr.1.layers.get LayerType.Lineart) with
      | (Except.error _, sm2) => { st1 with storage := sm2 }
      | (Except.ok _, sm2) =>
        match StorageManager.copyLayer ⟨sm2.db⟩ (sourceFrame.layers.get LayerType.Color)
            (fr.1.layers.get LayerType.Color) with
        | (Except.error _, sm3) => { st1 with storage := sm3 }
        | (Except.ok _, sm3) =>
          let newFrames := st.frames.insertIdx (index + 1) fr.1
          let reindexedFrames := reindex newFrames
          let st2 : AppState := { st1 with storage := sm3, frames := reindexedFrames }
          match st2.storage.saveFrame fr.1 with
          | (Except.error _, sm4) => { st2 with storage := sm4 }
          | (Except.ok _, sm4) =>
            { st2 with storage := sm4, currentFrameIndex := index + 1 }

/-- deleteFrame of App.tsx: rejected while at most one frame exists; no-op
    when frames[index] is undefined; else drop the frame from the list,
    reindex, delete its three layer blobs from the store, and clamp the
    current frame index when it fell off the end.  An error thrown by an
    await skips everything after it. -/
def deleteFrame (st : AppState) (index : ℕ) : AppState :=
  if st.frames.length ≤ 1 then st
  else
    match st.frames.get? index with
    | none => st
    | some frameToDelete =>
      let newFrames := reindex ((st.frames.enum.filter (fun p => p.1 ≠ index)).map (fun p => p.2))
      let st1 : AppState := { st with frames := newFrames }
      match st1.storage.deleteLayer (frameToDelete.layers.get LayerType.Background) with
      | (Except.error _, sm) => { st1 with storage := sm }
      | (Except.ok _, sm) =>
        match StorageManager.deleteLayer ⟨sm.db⟩ (frameToDelete.layers.get LayerType.Lineart) with
        | (Except.error _, sm2) => { st1 with storage := sm2 }
        | (Except.ok _, sm2) =>
          match StorageManager.deleteLayer ⟨sm2.db⟩ (frameToDelete.layers.get LayerType.Color) with
          | (Except.error _, sm3) => { st1 with storage := sm3 }
          | (Except.ok _, sm3) =>
            let st3 : AppState := { st1 with storage := sm3 }
            if st3.currentFrameIndex ≥ newFrames.length then
              { st3 with currentFrameIndex := max 0 (newFrames.length - 1) }
            else st3

/-- One frame operation of the timeline. -/
inductive FrameOp where
  | add
  | dup (i : ℕ)
  | del (i : ℕ)
deriving DecidableEq

/-- Applying one frame operation to the App state. -/
def applyOp (st : AppState) : FrameOp → AppState
  | FrameOp.add => addFrame st
  | FrameOp.dup i => duplicateFrame st i
  | FrameOp.del i => deleteFrame st i

/-- Applying a sequence of frame operations, oldest first. -/
def applyOps (st : AppState) (ops : List FrameOp) : AppState :=
  ops.foldl applyOp st

/-- The undo/redo state of src/App.tsx for one fixed (frame, layer role)
    pair: the two React stacks (array end = stack top) and the blob
    persisted in the store under that pair's layer id (none when the layer
    record is absent). -/
structure HistoryState where
  undoStack : List (Option Blob)
  redoStack : List (Option Blob)
  persisted : Option Blob
deriving DecidableEq

/-- prev.slice(-19): the last 19 elements (all of them when fewer). -/
def sliceLast19 (l : List (Option Blob)) : List (Option Blob) :=
  l.drop (l.length - 19)

/-- One mutation on the active (frame, layer) pair, as handlePointerDown
    followed by handlePointerUp perform it: push the currently persisted
    blob onto the undo stack keeping the last 20 entries, clear the redo
    stack, and persist the newly drawn blob b. -/
def mutate (s : HistoryState) (b : Blob) : HistoryState :=
  { undoStack := sliceLast19 s.undoStack ++ [s.persisted]
    redoStack := []
    persisted := some b }

/-- undo of App.tsx: no-op on an empty undo stack; else pop the most recent
    snapshot, push the currently persisted state onto the redo stack, and
    restore the snapshot into the store (saving the blob, or deleting the
    layer when the snapshot is the absence marker). -/
def undo (s : HistoryState) : HistoryState :=
  match s.undoStack.getLast? with
  | none => s
  | some prevBlob =>
    { undoStack := s.undoStack.dropLast
      redoStack := s.redoStack ++ [s.persisted]
      persisted := prevBlob }

/-- redo of App.tsx: the exact mirror of undo. -/
def redo (s : HistoryState) : HistoryState :=
  match s.redoStack.getLast? with
  | none => s
  | some nextBlob =>
    { undoStack := s.undoStack ++ [s.persisted]
      redoStack := s.redoStack.dropLast
      persisted := nextBlob }

/-- AnimationLoop of engine/AnimationLoop.ts: fps, playing flag, baseline
    time, frame interval, total frame count and current frame index.
    Wall-clock times are exact rationals. -/
structure AnimationLoop where
  fps : ℚ
  isPlaying : Bool
  lastTime : ℚ
  frameInterval : ℚ
  totalFrames : ℕ
  currentFrame : ℕ
deriving DecidableEq

/-- JS truncating rounding (Math.trunc), underlying the % operator. -/
def ratTrunc (q : ℚ) : ℤ := if 0 ≤ q then ⌊q⌋ else -⌊-q⌋

/-- The JS % remainder: a - b * trunc(a / b). -/
def jsRem (a b : ℚ) : ℚ := a - b * ratTrunc (a / b)

/-- One scheduling tick, the private loop(now) method: nothing while not
    playing; else with elapsed = now - lastTime, when elapsed has reached
    the frame interval advance by floor(elapsed / frameInterval) frames
    modulo totalFrames, rebase lastTime to now - (elapsed % frameInterval),
    and notify once with the new frame index.  Returns the new state and
    the list of onFrame notifications the tick issued. -/
def AnimationLoop.loop (s : AnimationLoop) (now : ℚ) :
    AnimationLoop × List ℕ :=
  if ¬ s.isPlaying then (s, [])
  else
    let elapsed := now - s.lastTime
    if s.frameInterval ≤ elapsed then
      let framesToAdvance := (⌊elapsed / s.frameInterval⌋).toNat
      let curr := (s.currentFrame + framesToAdvance) % s.totalFrames
      ({ s with currentFrame := curr,
                lastTime := now - jsRem elapsed s.frameInterval }, [curr])
    else (s, [])

theorem colorsMatch_iff (c1 c2 : RGBA) : colorsMatch c1 c2 = true ↔ c1 = c2 := by
  obtain ⟨a1, a2, a3, a4⟩ := c1
  obtain ⟨b1, b2, b3, b4⟩ := c2
  simp [colorsMatch, Prod.ext_iff, and_assoc]

theorem colorsMatch_eq_false_iff (c1 c2 : RGBA) :
    colorsMatch c1 c2 = false ↔ c1 ≠ c2 := by
  have h := colorsMatch_iff c1 c2
  constructor
  · intro hf he
    rw [h.mpr he] at hf
    exact Bool.noConfusion hf
  · intro hne
    cases hc : colorsMatch c1 c2
    · rfl
    · exact absurd (h.mp hc) hne

theorem fillLoop_nil (w h : ℕ) (target fill : RGBA) (hne : target ≠ fill)
    (img : ℕ × ℕ → RGBA) (trace : List (ℕ × ℕ)) :
    fillLoop w h target fill hne [] img trace = (img, trace) := by
  rw [fillLoop]

theorem fillLoop_cons_oob (w h : ℕ) (target fill : RGBA) (hne : target ≠ fill)
    (x y : ℤ) (rest : List (ℤ × ℤ)) (img : ℕ × ℕ → RGBA) (trace : List (ℕ × ℕ))
    (hoob : x < 0 ∨ (w : ℤ) ≤ x ∨ y < 0 ∨ (h : ℤ) ≤ y) :
    fillLoop w h target fill hne ((x, y) :: rest) img trace =
      fillLoop w h target fill hne rest img trace := by
  rw [fillLoop]
  simp [hoob]

theorem fillLoop_cons_skip (w h : ℕ) (target fill : RGBA) (hne : target ≠ fill)
    (x y : ℤ) (rest : List (ℤ × ℤ)) (img : ℕ × ℕ → RGBA) (trace : List (ℕ × ℕ))
    (hoob : ¬ (x < 0 ∨ (w : ℤ) ≤ x ∨ y < 0 ∨ (h : ℤ) ≤ y))
    (hcol : colorsMatch (img (x.toNat, y.toNat)) target = false) :
    fillLoop w h target fill hne ((x, y) :: rest) img trace =
      fillLoop w h target fill hne rest img trace := by
  rw [fillLoop]
  simp [hoob, hcol]

theorem fillLoop_cons_paint (w h : ℕ) (target fill : RGBA) (hne : target ≠ fill)
    (x y : ℤ) (rest : List (ℤ × ℤ)) (img : ℕ × ℕ → RGBA) (trace : List (ℕ × ℕ))
    (hoob : ¬ (x < 0 ∨ (w : ℤ) ≤ x ∨ y < 0 ∨ (h : ℤ) ≤ y))
    (hcol : colorsMatch (img (x.toNat, y.toNat)) target = true) :
    fillLoop w h target fill hne ((x, y) :: rest) img trace =
      fillLoop w h target fill hne
        ((x, y - 1) :: (x, y + 1) :: (x - 1, y) :: (x + 1, y) :: rest)
        (setPix img (x.toNat, y.toNat) fill)
        ((x.toNat, y.toNat) :: trace) := by
  rw [fillLoop]
  simp [hoob, hcol]

theorem fillLoop_spec (w h : ℕ) (img0 : ℕ × ℕ → RGBA) (target fill : RGBA)
    (seed : ℕ × ℕ) (hne : target ≠ fill) (hsg : inGrid w h seed)
    (hs0 : img0 seed = target)
    (stack : List (ℤ × ℤ)) (img : ℕ × ℕ → RGBA) (trace : List (ℕ × ℕ))
    (hinv : FillInv w h img0 target fill seed stack img trace)
    (hnd : trace.Nodup) :
    FillInv w h img0 target fill seed []
        (fillLoop w h target fill hne stack img trace).1
        (fillLoop w h target fill hne stack img trace).2 ∧
      (fillLoop w h target fill hne stack img trace).2.Nodup := by
  have hsg1 : seed.1 < w := hsg.1
  have hsg2 : seed.2 < h := hsg.2
  revert hinv hnd
  induction stack, img, trace using fillLoop.induct w h target fill hne with
  | case1 img trace =>
    intro hinv hnd
    rw [fillLoop_nil]
    exact ⟨hinv, hnd⟩
  | case2 img trace x y rest hoob ih =>
    intro hinv hnd
    rw [fillLoop_cons_oob w h target fill hne x y rest img trace hoob]
    obtain ⟨himg, htrace, hstack, hseed, hfront⟩ := hinv
    apply ih _ hnd
    refine ⟨himg, htrace, ?_, ?_, ?_⟩
    · intro c hc
      exact hstack c (List.mem_cons_of_mem _ hc)
    · rcases hseed with hs | hs
      · exact Or.inl hs
      · rcases List.mem_cons.mp hs with he | hm
        · exfalso
          rw [Prod.mk.injEq] at he
          omega
        · exact Or.inr hm
    · intro a ha b hadj hbg hbc
      rcases hfront a ha b hadj hbg hbc with hb | hb
      · exact Or.inl hb
      · rcases List.mem_cons.mp hb with he | hm
        · exfalso
          rw [Prod.mk.injEq] at he
          have hb1 : b.1 < w := hbg.1
          have hb2 : b.2 < h := hbg.2
          omega
        · exact Or.inr hm
  | case3 img trace x y rest hoob hcol ih =>
    intro hinv hnd
    rw [fillLoop_cons_skip w h target fill hne x y rest img trace hoob hcol]
    obtain ⟨himg, htrace, hstack, hseed, hfront⟩ := hinv
    have hcne : img (x.toNat, y.toNat) ≠ target :=
      (colorsMatch_eq_false_iff _ _).mp hcol
    apply ih _ hnd
    refine ⟨himg, htrace, ?_, ?_, ?_⟩
    · intro c hc
      exact hstack c (List.mem_cons_of_mem _ hc)
    · rcases hseed with hs | hs
      · exact Or.inl hs
      · rcases List.mem_cons.mp hs with he | hm
        · rw [Prod.mk.injEq] at he
          have hseedeq : (x.toNat, y.toNat) = seed := by
            rw [Prod.ext_iff]
            constructor <;> omega
          left
          by_contra hnt
          apply hcne
          rw [hseedeq, himg seed, if_neg hnt]
          exact hs0
        · exact Or.inr hm
    · intro a ha b hadj hbg hbc
      rcases hfront a ha b hadj hbg hbc with hb | hb
      · exact Or.inl hb
      · rcases List.mem_cons.mp hb with he | hm
        · rw [Prod.mk.injEq] at he
          have hbeq : (x.toNat, y.toNat) = b := by
            rw [Prod.ext_iff]
            constructor <;> omega
          left
          by_contra hnt
          apply hcne
          rw [hbeq, himg b, if_neg hnt]
          exact hbc
        · exact Or.inr hm
  | case4 img trace x y rest hoob hcolf ih =>
    intro hinv hnd
    have hcol : colorsMatch (img (x.toNat, y.toNat)) target = true := by
      revert hcolf
      cases colorsMatch (img (x.toNat, y.toNat)) target <;> simp
    rw [fillLoop_cons_paint w h target fill hne x y rest img trace hoob hcol]
    obtain ⟨himg, htrace, hstack, hseed, hfront⟩ := hinv
    have hcolT : img (x.toNat, y.toNat) = target := (colorsMatch_iff _ _).mp hcol
    push_neg at hoob
    obtain ⟨hx0, hxw, hy0, hyh⟩ := hoob
    have hnotin : (x.toNat, y.toNat) ∉ trace := by
      intro hin
      have he := himg (x.toNat, y.toNat)
      rw [if_pos hin] at he
      rw [he] at hcolT
      exact hne hcolT.symm
    have himg0c : img0 (x.toNat, y.toNat) = target := by
      have he := himg (x.toNat, y.toNat)
      rw [if_neg hnotin] at he
      rw [← he]
      exact hcolT
    have hreach : Reach w h img0 target seed (x.toNat, y.toNat) :=
      hstack (x, y) (List.mem_cons_self _ _) hx0 hxw hy0 hyh himg0c
    apply ih
    · refine ⟨?_, ?_, ?_, ?_, ?_⟩
      · intro p
        by_cases hp : p = (x.toNat, y.toNat)
        · subst hp
          simp [setPix, List.mem_cons]
        · simp only [setPix, if_neg hp]
          rw [himg p]
          simp [List.mem_cons, hp]
      · intro p hp
        rcases List.mem_cons.mp hp with rfl | hp
        · exact hreach
        · exact htrace p hp
      · intro c hc
        simp only [List.mem_cons] at hc
        rcases hc with rfl | rfl | rfl | rfl | hc
        · intro h1 h2 h3 h4 him
          refine Reach.step hreach ?_ ⟨by omega, by omega⟩ him
          right; right; right
          exact ⟨rfl, by omega⟩
        · intro h1 h2 h3 h4 him
          refine Reach.step hreach ?_ ⟨by omega, by omega⟩ him
          right; right; left
          exact ⟨rfl, by omega⟩
        · intro h1 h2 h3 h4 him
          refine Reach.step hreach ?_ ⟨by omega, by omega⟩ him
          right; left
          exact ⟨by omega, rfl⟩
        · intro h1 h2 h3 h4 him
          refine Reach.step hreach ?_ ⟨by omega, by omega⟩ him
          left
          exact ⟨by omega, rfl⟩
        · exact hstack c (List.mem_cons_of_mem _ hc)
      · rcases hseed with hs | hs
        · exact Or.inl (List.mem_cons_of_mem _ hs)
        · rcases List.mem_cons.mp hs with he | hm
          · left
            rw [Prod.mk.injEq] at he
            have hseedeq : seed = (x.toNat, y.toNat) := by
              rw [Prod.ext_iff]
              constructor <;> omega
            rw [hseedeq]
            exact List.mem_cons_self _ _
          · right
            simp only [List.mem_cons]
            tauto
      · intro a ha b hadj hbg hbc
        rcases List.mem_cons.mp ha with rfl | ha
        · right
          simp only [adj] at hadj
          have hb1 : b.1 < w := hbg.1
          have hb2 : b.2 < h := hbg.2
          simp only [List.mem_cons, Prod.mk.injEq]
          rcases hadj with ⟨ha1, ha2⟩ | ⟨ha1, ha2⟩ | ⟨ha1, ha2⟩ | ⟨ha1, ha2⟩
          · right; right; right; left
            constructor <;> omega
          · right; right; left
            constructor <;> omega
          · right; left
            constructor <;> omega
          · left
            constructor <;> omega
        · rcases hfront a ha b hadj hbg hbc with hb | hb
          · exact Or.inl (List.mem_cons_of_mem _ hb)
          · rcases List.mem_cons.mp hb with he | hm
            · left
              rw [Prod.mk.injEq] at he
              have hbeq : b = (x.toNat, y.toNat) := by
                rw [Prod.ext_iff]
                constructor <;> omega
              rw [hbeq]
              exact List.mem_cons_self _ _
            · right
              simp only [List.mem_cons]
              tauto
    · exact List.nodup_cons.mpr ⟨hnotin, hnd⟩

theorem fillInv_final (w h : ℕ) (img0 : ℕ × ℕ → RGBA) (target fill : RGBA)
    (seed : ℕ × ℕ) (img' : ℕ × ℕ → RGBA) (trace' : List (ℕ × ℕ))
    (hinv : FillInv w h img0 target fill seed [] img' trace') :
    (∀ p, p ∈ trace' ↔ Reach w h img0 target seed p) ∧
      (∀ p, img' p = if p ∈ trace' then fill else img0 p) := by
  obtain ⟨himg, htrace, hstack, hseed, hfront⟩ := hinv
  have hseedmem : seed ∈ trace' := by
    rcases hseed with hs | hs
    · exact hs
    · simp at hs
  refine ⟨?_, himg⟩
  intro p
  constructor
  · exact htrace p
  · intro hr
    induction hr with
    | base hg hc => exact hseedmem
    | step ha hadj hbg hbc ih =>
      rcases hfront _ ih _ hadj hbg hbc with hb | hb
      · exact hb
      · simp at hb

theorem floodFill_main (w h : ℕ) (img : ℕ × ℕ → RGBA) (sx sy : ℤ)
    (fillColor : String) (rgb : RGB)
    (hparse : hexToRgb fillColor = some rgb)
    (hx0 : 0 ≤ sx) (hxw : sx < (w : ℤ)) (hy0 : 0 ≤ sy) (hyh : sy < (h : ℤ))
    (hne : img (sx.toNat, sy.toNat) ≠ (rgb.r, rgb.g, rgb.b, 255)) :
    (∀ p, p ∈ (floodFill w h img sx sy fillColor).2 ↔
        Reach w h img (img (sx.toNat, sy.toNat)) (sx.toNat, sy.toNat) p) ∧
      (∀ p, (floodFill w h img sx sy fillColor).1 p =
        if p ∈ (floodFill w h img sx sy fillColor).2 then (rgb.r, rgb.g, rgb.b, 255)
        else img p) ∧
      (floodFill w h img sx sy fillColor).2.Nodup := by
  have hmf : ¬ colorsMatch (img (sx.toNat, sy.toNat)) (rgb.r, rgb.g, rgb.b, 255) = true :=
    fun hc => hne ((colorsMatch_iff _ _).mp hc)
  have hIneq : img (sx.toNat, sy.toNat) ≠ (rgb.r, rgb.g, rgb.b, 255) := hne
  have hflood : floodFill w h img sx sy fillColor =
      fillLoop w h (img (sx.toNat, sy.toNat)) (rgb.r, rgb.g, rgb.b, 255) hIneq
        [(sx, sy)] img [] := by
    rw [floodFill]
    rw [hparse]
    simp only [dif_neg hmf]
  have hinv0 : FillInv w h img (img (sx.toNat, sy.toNat)) (rgb.r, rgb.g, rgb.b, 255)
      (sx.toNat, sy.toNat) [(sx, sy)] img [] := by
    refine ⟨?_, ?_, ?_, ?_, ?_⟩
    · intro p
      simp
    · intro p hp
      simp at hp
    · intro c hc
      simp only [List.mem_cons] at hc
      rcases hc with rfl | hc
      · intro h1 h2 h3 h4 him
        exact Reach.base ⟨by omega, by omega⟩ him
      · simp at hc
    · right
      simp only [List.mem_cons]
      left
      rw [Prod.mk.injEq]
      constructor <;> omega
    · intro a ha
      simp at ha
  have hspec := fillLoop_spec w h img (img (sx.toNat, sy.toNat))
      (rgb.r, rgb.g, rgb.b, 255) (sx.toNat, sy.toNat) hIneq
      ⟨by omega, by omega⟩ rfl [(sx, sy)] img [] hinv0 List.nodup_nil
  have hfin := fillInv_final w h img (img (sx.toNat, sy.toNat))
      (rgb.r, rgb.g, rgb.b, 255) (sx.toNat, sy.toNat) _ _ hspec.1
  rw [hflood]
  exact ⟨hfin.1, hfin.2, hspec.2⟩

/-- C1: seeded at an in-bounds coordinate whose 4-connected uniform-color
    region has a color different from the fully opaque fill color, floodFill
    paints exactly the pixels of that region to the opaque fill color, each
    recorded exactly once in the paint trace (the trace has no duplicates
    and holds precisely the region), leaves every pixel outside the region
    untouched, and terminates (fillLoop is a total function defined by
    well-founded recursion on the match count). -/
theorem floodFill_boundary (w h : ℕ) (img : ℕ × ℕ → RGBA) (sx sy : ℕ)
    (fillColor : String) (rgb : RGB)
    (hparse : hexToRgb fillColor = some rgb)
    (hx : sx < w) (hy : sy < h)
    (hne : img (sx, sy) ≠ (rgb.r, rgb.g, rgb.b, 255)) :
    (∀ p, Reach w h img (img (sx, sy)) (sx, sy) p →
        (floodFill w h img sx sy fillColor).1 p = (rgb.r, rgb.g, rgb.b, 255)) ∧
      (∀ p, ¬ Reach w h img (img (sx, sy)) (sx, sy) p →
        (floodFill w h img sx sy fillColor).1 p = img p) ∧
      (floodFill w h img sx sy fillColor).2.Nodup ∧
      (∀ p, p ∈ (floodFill w h img sx sy fillColor).2 ↔
        Reach w h img (img (sx, sy)) (sx, sy) p) := by
  have hco : ((sx : ℤ).toNat, (sy : ℤ).toNat) = (sx, sy) := by
    rw [Prod.mk.injEq]
    constructor <;> omega
  have hmain := floodFill_main w h img sx sy fillColor rgb hparse
    (by omega) (by omega) (by omega) (by omega) (by rw [hco]; exact hne)
  rw [hco] at hmain
  obtain ⟨hmem, himg, hnd⟩ := hmain
  refine ⟨?_, ?_, hnd, hmem⟩
  · intro p hr
    rw [himg p, if_pos ((hmem p).mpr hr)]
  · intro p hr
    rw [himg p]
    rw [if_neg (fun hm => hr ((hmem p).mp hm))]

/-- Witness for C1 at a concrete input: a 2-by-2 all-transparent canvas
    filled from the in-bounds seed (0, 0) with the parseable color #ff0000,
    whose opaque value differs from the uniform region color. -/
theorem floodFill_boundary_witness :
    (hexToRgb ("#ff0000") = some ⟨255, 0, 0⟩ ∧ 0 < 2 ∧ 0 < 2 ∧
        (fun _ : ℕ × ℕ => ((0, 0, 0, 0) : RGBA)) (0, 0) ≠ (255, 0, 0, 255)) ∧
      ((∀ p, Reach 2 2 (fun _ => (0, 0, 0, 0)) ((fun _ : ℕ × ℕ => ((0, 0, 0, 0) : RGBA)) (0, 0)) (0, 0) p →
          (floodFill 2 2 (fun _ => (0, 0, 0, 0)) 0 0 ("#ff0000")).1 p = (255, 0, 0, 255)) ∧
        (∀ p, ¬ Reach 2 2 (fun _ => (0, 0, 0, 0)) ((fun _ : ℕ × ℕ => ((0, 0, 0, 0) : RGBA)) (0, 0)) (0, 0) p →
          (floodFill 2 2 (fun _ => (0, 0, 0, 0)) 0 0 ("#ff0000")).1 p = (fun _ => (0, 0, 0, 0)) p) ∧
        (floodFill 2 2 (fun _ => (0, 0, 0, 0)) 0 0 ("#ff0000")).2.Nodup ∧
        (∀ p, p ∈ (floodFill 2 2 (fun _ => (0, 0, 0, 0)) 0 0 ("#ff0000")).2 ↔
          Reach 2 2 (fun _ => (0, 0, 0, 0)) ((fun _ : ℕ × ℕ => ((0, 0, 0, 0) : RGBA)) (0, 0)) (0, 0) p)) :=
  ⟨⟨by decide, by decide, by decide, by decide⟩,
    floodFill_boundary 2 2 (fun _ => (0, 0, 0, 0)) 0 0 ("#ff0000") ⟨255, 0, 0⟩
      (by decide) (by decide) (by decide) (by decide)⟩

theorem floodFill_oob_seed (w h : ℕ) (img : ℕ × ℕ → RGBA) (sx sy : ℤ)
    (fillColor : String)
    (hoob : sx < 0 ∨ (w : ℤ) ≤ sx ∨ sy < 0 ∨ (h : ℤ) ≤ sy) :
    (floodFill w h img sx sy fillColor).1 = img := by
  rw [floodFill]
  cases hp : hexToRgb fillColor with
  | none => rfl
  | some rgb =>
    by_cases hm : colorsMatch (img (sx.toNat, sy.toNat)) (rgb.r, rgb.g, rgb.b, 255) = true
    · simp only [dif_pos hm]
    · simp only [dif_neg hm]
      rw [fillLoop_cons_oob _ _ _ _ _ _ _ _ _ _ hoob, fillLoop_nil]

/-- C7: for every raster, every seed coordinate and every parseable fill
    color, applying floodFill twice with the same arguments yields the same
    raster as applying it once; and when the seed pixel already equals the
    fully opaque fill color the call is a complete no-op. -/
theorem floodFill_idempotent (w h : ℕ) (img : ℕ × ℕ → RGBA) (sx sy : ℤ)
    (fillColor : String) (rgb : RGB)
    (hparse : hexToRgb fillColor = some rgb) :
    (floodFill w h (floodFill w h img sx sy fillColor).1 sx sy fillColor).1
        = (floodFill w h img sx sy fillColor).1 ∧
      (img (sx.toNat, sy.toNat) = (rgb.r, rgb.g, rgb.b, 255) →
        floodFill w h img sx sy fillColor = (img, [])) := by
  constructor
  · by_cases hm : colorsMatch (img (sx.toNat, sy.toNat)) (rgb.r, rgb.g, rgb.b, 255) = true
    · have h1 : floodFill w h img sx sy fillColor = (img, []) := by
        rw [floodFill, hparse]
        simp only [dif_pos hm]
      rw [h1]
      show (floodFill w h img sx sy fillColor).1 = img
      rw [h1]
    · by_cases hb : 0 ≤ sx ∧ sx < (w : ℤ) ∧ 0 ≤ sy ∧ sy < (h : ℤ)
      · obtain ⟨hx0, hxw, hy0, hyh⟩ := hb
        have hne : img (sx.toNat, sy.toNat) ≠ (rgb.r, rgb.g, rgb.b, 255) :=
          fun he => hm ((colorsMatch_iff _ _).mpr he)
        obtain ⟨hmem, himg, hnd⟩ :=
          floodFill_main w h img sx sy fillColor rgb hparse hx0 hxw hy0 hyh hne
        have hseedfill : (floodFill w h img sx sy fillColor).1 (sx.toNat, sy.toNat)
            = (rgb.r, rgb.g, rgb.b, 255) := by
          rw [himg _, if_pos]
          exact (hmem _).mpr (Reach.base ⟨by omega, by omega⟩ rfl)
        rw [floodFill, hparse]
        simp only [dif_pos ((colorsMatch_iff _ _).mpr hseedfill)]
      · have hoob : sx < 0 ∨ (w : ℤ) ≤ sx ∨ sy < 0 ∨ (h : ℤ) ≤ sy := by omega
        have h1 : (floodFill w h img sx sy fillColor).1 = img :=
          floodFill_oob_seed w h img sx sy fillColor hoob
        rw [h1]
        exact h1
  · intro hseed
    rw [floodFill, hparse]
    simp only [dif_pos ((colorsMatch_iff _ _).mpr hseed)]

/-- Witness for C7 at a concrete input: a 1-by-1 canvas of uniform color
    (9, 9, 9, 9), seed (0, 0), fill color #abcdef. -/
theorem floodFill_idempotent_witness :
    hexToRgb ("#abcdef") = some ⟨171, 205, 239⟩ ∧
      ((floodFill 1 1
            (floodFill 1 1 (fun _ => (9, 9, 9, 9)) 0 0 ("#abcdef")).1 0 0 ("#abcdef")).1
          = (floodFill 1 1 (fun _ => (9, 9, 9, 9)) 0 0 ("#abcdef")).1 ∧
        ((fun _ : ℕ × ℕ => ((9, 9, 9, 9) : RGBA)) ((0 : ℤ).toNat, (0 : ℤ).toNat)
            = (171, 205, 239, 255) →
          floodFill 1 1 (fun _ => (9, 9, 9, 9)) 0 0 ("#abcdef")
            = (fun _ => (9, 9, 9, 9), []))) :=
  ⟨by decide,
    floodFill_idempotent 1 1 (fun _ => (9, 9, 9, 9)) 0 0 ("#abcdef") ⟨171, 205, 239⟩
      (by decide)⟩

theorem redo_undo (s : HistoryState) (hne : s.undoStack ≠ []) :
    redo (undo s) = s := by
  have hlast : s.undoStack.getLast? = some (s.undoStack.getLast hne) :=
    List.getLast?_eq_getLast s.undoStack hne
  rw [undo, hlast]
  rw [redo]
  simp only [List.getLast?_concat]
  rw [List.dropLast_concat]
  have hdl : s.undoStack.dropLast ++ [s.undoStack.getLast hne] = s.undoStack :=
    List.dropLast_append_getLast hne
  cases s with
  | mk u r p =>
    simp only at hdl ⊢
    rw [hdl]

theorem undo_length (s : HistoryState) (hne : s.undoStack ≠ []) :
    (undo s).undoStack.length = s.undoStack.length - 1 := by
  have hlast : s.undoStack.getLast? = some (s.undoStack.getLast hne) :=
    List.getLast?_eq_getLast s.undoStack hne
  rw [undo, hlast]
  simp [List.length_dropLast]

theorem redo_undo_iter (k : ℕ) :
    ∀ s : HistoryState, k ≤ s.undoStack.length → redo^[k] (undo^[k] s) = s := by
  induction k with
  | zero => intro s _; simp
  | succ k ih =>
    intro s hk
    have hne : s.undoStack ≠ [] := by
      intro he
      rw [he] at hk
      simp at hk
    have h1 : undo^[k + 1] s = undo^[k] (undo s) := by
      rw [Function.iterate_succ_apply]
    have h2 : redo^[k + 1] (undo^[k] (undo s)) = redo (redo^[k] (undo^[k] (undo s))) := by
      rw [Function.iterate_succ_apply']
    rw [h1, h2]
    have hlen : k ≤ (undo s).undoStack.length := by
      rw [undo_length s hne]
      omega
    rw [ih (undo s) hlen]
    exact redo_undo s hne

theorem mutate_undo_length (bs : List Blob) :
    ∀ s : HistoryState,
      min (s.undoStack.length + bs.length) 20 ≤ (bs.foldl mutate s).undoStack.length := by
  induction bs with
  | nil => intro s; simp
  | cons b bs ih =>
    intro s
    rw [List.foldl_cons]
    have h1 := ih (mutate s b)
    have h2 : (mutate s b).undoStack.length = min s.undoStack.length 19 + 1 := by
      simp [mutate, sliceLast19]
      omega
    rw [h2] at h1
    refine le_trans ?_ h1
    simp only [List.length_cons]
    omega

/-- C2: for any sequence of k mutations on one fixed (frame, layer) pair
    with k at most the retained history depth of 20, undoing k times and
    then redoing k times leaves the persisted layer blob bit-for-bit
    identical to its state immediately after the k-th mutation (in fact the
    whole history state is restored). -/
theorem undo_redo_symmetry (s0 : HistoryState) (bs : List Blob)
    (hk : bs.length ≤ 20) :
    (redo^[bs.length] (undo^[bs.length] (bs.foldl mutate s0))).persisted
      = (bs.foldl mutate s0).persisted := by
  have hlen := mutate_undo_length bs s0
  have hge : bs.length ≤ (bs.foldl mutate s0).undoStack.length := by
    refine le_trans ?_ hlen
    omega
  rw [redo_undo_iter bs.length (bs.foldl mutate s0) hge]

/-- Witness for C2 at a concrete input: two mutations from a fresh state,
    then undo twice and redo twice. -/
theorem undo_redo_symmetry_witness :
    ([[1, 2], [3]] : List Blob).length ≤ 20 ∧
      (redo^[([[1, 2], [3]] : List Blob).length]
          (undo^[([[1, 2], [3]] : List Blob).length]
            (([[1, 2], [3]] : List Blob).foldl mutate ⟨[], [], none⟩))).persisted
        = (([[1, 2], [3]] : List Blob).foldl mutate ⟨[], [], none⟩).persisted :=
  ⟨by decide, undo_redo_symmetry ⟨[], [], none⟩ [[1, 2], [3]] (by decide)⟩

/-- C3: one scheduling tick while playing.  When elapsed = now - lastTime
    has reached the frame interval, the frame index advances by
    floor(elapsed / interval) wrapping modulo the total frame count, the
    baseline is rebased to now - (elapsed mod interval), and the
    frame-changed notification fires exactly once; when elapsed is below
    the interval, the state is unchanged and no notification fires. -/
theorem loop_tick (s : AnimationLoop) (now : ℚ)
    (hp : s.isPlaying = true) (hI : 0 < s.frameInterval)
    (hT : 0 < s.totalFrames) :
    (s.frameInterval ≤ now - s.lastTime →
        s.loop now =
          ({ s with
              currentFrame :=
                (s.currentFrame + (⌊(now - s.lastTime) / s.frameInterval⌋).toNat)
                  % s.totalFrames,
              lastTime :=
                now - ((now - s.lastTime)
                  - s.frameInterval * ⌊(now - s.lastTime) / s.frameInterval⌋) },
            [(s.currentFrame + (⌊(now - s.lastTime) / s.frameInterval⌋).toNat)
              % s.totalFrames])) ∧
      (now - s.lastTime < s.frameInterval → s.loop now = (s, [])) := by
  have hTuse : 0 < s.totalFrames := hT
  constructor
  · intro hEl
    have h0 : (0 : ℚ) ≤ (now - s.lastTime) / s.frameInterval :=
      div_nonneg (by linarith) (le_of_lt hI)
    have ht : ratTrunc ((now - s.lastTime) / s.frameInterval)
        = ⌊(now - s.lastTime) / s.frameInterval⌋ := by
      rw [ratTrunc, if_pos h0]
    simp only [AnimationLoop.loop, hp, Bool.not_true, jsRem, ht]
    rw [if_neg (by simp), if_pos hEl]
  · intro hlt
    simp only [AnimationLoop.loop, hp, Bool.not_true]
    rw [if_neg (by simp), if_neg (not_le.mpr hlt)]

/-- Witness for C3 at a concrete input: playing at interval 100 with 3
    frames from frame 1, baseline 0, ticked at now = 250: the index
    advances by floor(2.5) = 2 to (1 + 2) mod 3 = 0 with one notification,
    and the baseline is rebased to 200. -/
theorem loop_tick_witness :
    ((⟨12, true, 0, 100, 3, 1⟩ : AnimationLoop).isPlaying = true ∧
        (0 : ℚ) < (⟨12, true, 0, 100, 3, 1⟩ : AnimationLoop).frameInterval ∧
        0 < (⟨12, true, 0, 100, 3, 1⟩ : AnimationLoop).totalFrames) ∧
      (((⟨12, true, 0, 100, 3, 1⟩ : AnimationLoop).frameInterval
          ≤ (250 : ℚ) - (⟨12, true, 0, 100, 3, 1⟩ : AnimationLoop).lastTime →
        (⟨12, true, 0, 100, 3, 1⟩ : AnimationLoop).loop 250 =
          ({ (⟨12, true, 0, 100, 3, 1⟩ : AnimationLoop) with
              currentFrame :=
                ((⟨12, true, 0, 100, 3, 1⟩ : AnimationLoop).currentFrame
                  + (⌊((250 : ℚ) - (⟨12, true, 0, 100, 3, 1⟩ : AnimationLoop).lastTime)
                      / (⟨12, true, 0, 100, 3, 1⟩ : AnimationLoop).frameInterval⌋).toNat)
                  % (⟨12, true, 0, 100, 3, 1⟩ : AnimationLoop).totalFrames,
              lastTime :=
                (250 : ℚ) - (((250 : ℚ) - (⟨12, true, 0, 100, 3, 1⟩ : AnimationLoop).lastTime)
                  - (⟨12, true, 0, 100, 3, 1⟩ : AnimationLoop).frameInterval
                    * ⌊((250 : ℚ) - (⟨12, true, 0, 100, 3, 1⟩ : AnimationLoop).lastTime)
                        / (⟨12, true, 0, 100, 3, 1⟩ : AnimationLoop).frameInterval⌋) },
            [((⟨12, true, 0, 100, 3, 1⟩ : AnimationLoop).currentFrame
              + (⌊((250 : ℚ) - (⟨12, true, 0, 100, 3, 1⟩ : AnimationLoop).lastTime)
                  / (⟨12, true, 0, 100, 3, 1⟩ : AnimationLoop).frameInterval⌋).toNat)
              % (⟨12, true, 0, 100, 3, 1⟩ : AnimationLoop).totalFrames])) ∧
        ((250 : ℚ) - (⟨12, true, 0, 100, 3, 1⟩ : AnimationLoop).lastTime
            < (⟨12, true, 0, 100, 3, 1⟩ : AnimationLoop).frameInterval →
          (⟨12, true, 0, 100, 3, 1⟩ : AnimationLoop).loop 250
            = (⟨12, true, 0, 100, 3, 1⟩, []))) :=
  ⟨⟨rfl, by norm_num, by norm_num⟩,
    loop_tick ⟨12, true, 0, 100, 3, 1⟩ 250 rfl (by norm_num) (by norm_num)⟩

theorem framesIdx_reindex (l : List Frame) :
    (reindex l).map (fun f => f.index) = List.range (reindex l).length := by
  have hlen : (reindex l).length = l.length := by
    rw [reindex, List.length_mapIdx]
  rw [hlen, reindex, List.mapIdx_eq_enum_map, List.map_map]
  have h : ∀ p : ℕ × Frame,
      (Function.comp (fun f => f.index)
        (Function.uncurry fun i f => { f with index := i })) p = p.1 := by
    intro p
    rfl
  rw [List.map_congr_left (fun p _ => h p)]
  exact List.enum_map_fst l

theorem addFrame_inv (st : AppState)
    (h : st.frames.map (fun f => f.index) = List.range st.frames.length) :
    (addFrame st).frames.map (fun f => f.index)
      = List.range (addFrame st).frames.length := by
  have hf : (addFrame st).frames
      = st.frames ++ [(createNewFrame st.nextId st.frames.length).1] := by
    rw [addFrame]
    split <;> rfl
  rw [hf]
  simp only [List.map_append, List.length_append, List.map_cons, List.map_nil]
  rw [h]
  have hidx : (createNewFrame st.nextId st.frames.length).1.index
      = st.frames.length := rfl
  rw [hidx]
  have hone : st.frames.length + [(createNewFrame st.nextId st.frames.length).1].length
      = st.frames.length + 1 := rfl
  rw [hone, List.range_succ]

theorem duplicateFrame_inv (st : AppState) (i : ℕ)
    (h : st.frames.map (fun f => f.index) = List.range st.frames.length) :
    (duplicateFrame st i).frames.map (fun f => f.index)
      = List.range (duplicateFrame st i).frames.length := by
  rw [duplicateFrame]
  cases hg : st.frames.get? i with
  | none => exact h
  | some f =>
    dsimp only
    split
    · exact h
    · split
      · exact h
      · split
        · exact h
        · split
          · exact framesIdx_reindex _
          · exact framesIdx_reindex _

theorem deleteFrame_inv (st : AppState) (i : ℕ)
    (h : st.frames.map (fun f => f.index) = List.range st.frames.length) :
    (deleteFrame st i).frames.map (fun f => f.index)
      = List.range (deleteFrame st i).frames.length := by
  rw [deleteFrame]
  split
  · exact h
  · cases hg : st.frames.get? i with
    | none => exact h
    | some f =>
      dsimp only
      split
      · exact framesIdx_reindex _
      · split
        · exact framesIdx_reindex _
        · split
          · exact framesIdx_reindex _
          · split
            · exact framesIdx_reindex _
            · exact framesIdx_reindex _

/-- C4: starting from a frame list whose index fields are exactly
    0..count-1 in list order, any sequence of add, duplicate and delete
    frame operations preserves that property: the resulting list's index
    fields are exactly 0..count-1 with no gaps and no duplicates. -/
theorem frame_ordering_invariant (ops : List FrameOp) (st : AppState)
    (h : st.frames.map (fun f => f.index) = List.range st.frames.length) :
    (applyOps st ops).frames.map (fun f => f.index)
      = List.range (applyOps st ops).frames.length := by
  induction ops generalizing st with
  | nil => exact h
  | cons op ops ih =>
    rw [applyOps, List.foldl_cons]
    cases op with
    | add => exact ih (addFrame st) (addFrame_inv st h)
    | dup i => exact ih (duplicateFrame st i) (duplicateFrame_inv st i h)
    | del i => exact ih (deleteFrame st i) (deleteFrame_inv st i h)

/-- Witness for C4 at a concrete input: one initial frame with index 0 and
    an initialized store, then add, duplicate frame 0, and delete frame 1. -/
theorem frame_ordering_invariant_witness :
    ((⟨[⟨"f0", 0, ⟨"l0", "l1", "l2"⟩⟩], 0, 0, ⟨some ⟨[], []⟩⟩⟩ : AppState)).frames.map
        (fun f => f.index)
        = List.range ((⟨[⟨"f0", 0, ⟨"l0", "l1", "l2"⟩⟩], 0, 0,
            ⟨some ⟨[], []⟩⟩⟩ : AppState)).frames.length ∧
      (applyOps ⟨[⟨"f0", 0, ⟨"l0", "l1", "l2"⟩⟩], 0, 0, ⟨some ⟨[], []⟩⟩⟩
          [FrameOp.add, FrameOp.dup 0, FrameOp.del 1]).frames.map (fun f => f.index)
        = List.range (applyOps ⟨[⟨"f0", 0, ⟨"l0", "l1", "l2"⟩⟩], 0, 0, ⟨some ⟨[], []⟩⟩⟩
            [FrameOp.add, FrameOp.dup 0, FrameOp.del 1]).frames.length :=
  ⟨by decide,
    frame_ordering_invariant [FrameOp.add, FrameOp.dup 0, FrameOp.del 1]
      ⟨[⟨"f0", 0, ⟨"l0", "l1", "l2"⟩⟩], 0, 0, ⟨some ⟨[], []⟩⟩⟩ (by decide)⟩

/-- C8: when exactly one frame exists, deleteFrame is rejected as a no-op:
    the frame list, the current frame index and the persisted store (the
    whole App state) are left unchanged, so at least one frame always
    exists. -/
theorem deleteFrame_single_noop (st : AppState) (i : ℕ)
    (h : st.frames.length = 1) :
    deleteFrame st i = st := by
  rw [deleteFrame, if_pos (by omega)]

/-- Witness for C8 at a concrete input: a one-frame state with an
    initialized store holding that frame's record and a painted blob. -/
theorem deleteFrame_single_noop_witness :
    ((⟨[⟨"f0", 0, ⟨"l0", "l1", "l2"⟩⟩], 0, 4,
        ⟨some ⟨[("l1", [7, 7])], [("f0", ⟨"f0", 0, ⟨"l0", "l1", "l2"⟩⟩)]⟩⟩⟩ :
        AppState)).frames.length = 1 ∧
      deleteFrame (⟨[⟨"f0", 0, ⟨"l0", "l1", "l2"⟩⟩], 0, 4,
          ⟨some ⟨[("l1", [7, 7])], [("f0", ⟨"f0", 0, ⟨"l0", "l1", "l2"⟩⟩)]⟩⟩⟩ :
          AppState) 0
        = ⟨[⟨"f0", 0, ⟨"l0", "l1", "l2"⟩⟩], 0, 4,
            ⟨some ⟨[("l1", [7, 7])], [("f0", ⟨"f0", 0, ⟨"l0", "l1", "l2"⟩⟩)]⟩⟩⟩ :=
  ⟨by decide,
    deleteFrame_single_noop
      ⟨[⟨"f0", 0, ⟨"l0", "l1", "l2"⟩⟩], 0, 4,
        ⟨some ⟨[("l1", [7, 7])], [("f0", ⟨"f0", 0, ⟨"l0", "l1", "l2"⟩⟩)]⟩⟩⟩ 0
      (by decide)⟩

/-- C9: every persistence operation of StorageManager invoked before init
    has completed fails with the "DB not initialized" error and leaves the
    store state unchanged. -/
theorem storage_uninitialized (sm : StorageManager) (hdb : sm.db = none)
    (id src dst : String) (b : Blob) (f : Frame) :
    sm.saveLayer id b = (Except.error dbNotInit, sm) ∧
      sm.getLayer id = (Except.error dbNotInit, sm) ∧
      sm.deleteLayer id = (Except.error dbNotInit, sm) ∧
      sm.copyLayer src dst = (Except.error dbNotInit, sm) ∧
      sm.saveFrame f = (Except.error dbNotInit, sm) ∧
      sm.getAllFrames = (Except.error dbNotInit, sm) := by
  refine ⟨?_, ?_, ?_, ?_, ?_, ?_⟩
  · rw [StorageManager.saveLayer, hdb]
  · rw [StorageManager.getLayer, hdb]
  · rw [StorageManager.deleteLayer, hdb]
  · rw [StorageManager.copyLayer, StorageManager.getLayer, hdb]
  · rw [StorageManager.saveFrame, hdb]
  · rw [StorageManager.getAllFrames, hdb]

/-- Witness for C9 at a concrete input: the fresh StorageManager before
    init, with arbitrary concrete arguments. -/
theorem storage_uninitialized_witness :
    (⟨none⟩ : StorageManager).db = none ∧
      ((⟨none⟩ : StorageManager).saveLayer ("la") [1]
            = (Except.error dbNotInit, ⟨none⟩) ∧
        (⟨none⟩ : StorageManager).getLayer ("la")
            = (Except.error dbNotInit, ⟨none⟩) ∧
        (⟨none⟩ : StorageManager).deleteLayer ("la")
            = (Except.error dbNotInit, ⟨none⟩) ∧
        (⟨none⟩ : StorageManager).copyLayer ("la") ("lb")
            = (Except.error dbNotInit, ⟨none⟩) ∧
        (⟨none⟩ : StorageManager).saveFrame ⟨"f", 0, ⟨"a", "b", "c"⟩⟩
            = (Except.error dbNotInit, ⟨none⟩) ∧
        (⟨none⟩ : StorageManager).getAllFrames
            = (Except.error dbNotInit, ⟨none⟩)) :=
  ⟨rfl, storage_uninitialized ⟨none⟩ rfl ("la") ("la") ("lb") [1] ⟨"f", 0, ⟨"a", "b", "c"⟩⟩⟩

theorem getAL_delAL_self {α : Type} (l : List (String × α)) (k : String) :
    getAL (delAL l k) k = none := by
  induction l with
  | nil => rfl
  | cons kv l ih =>
    rw [delAL, List.filter_cons]
    by_cases hk : kv.1 = k
    · have hb : (!(kv.1 == k)) = false := by simp [hk]
      rw [hb, if_neg (by simp)]
      exact ih
    · have hb : (!(kv.1 == k)) = true := by simp [hk]
      rw [hb, if_pos rfl, getAL, List.find?_cons]
      have hfalse : (kv.1 == k) = false := by simp [hk]
      rw [hfalse]
      exact ih

theorem getAL_delAL_other {α : Type} (l : List (String × α)) (k k' : String)
    (hne : k' ≠ k) : getAL (delAL l k) k' = getAL l k' := by
  induction l with
  | nil => rfl
  | cons kv l ih =>
    rw [delAL, List.filter_cons]
    by_cases hk : kv.1 = k
    · have hb : (!(kv.1 == k)) = false := by simp [hk]
      rw [hb, if_neg (by simp)]
      have hfalse : (kv.1 == k') = false := by
        simp only [beq_eq_false_iff_ne]
        intro he
        rw [he] at hk
        exact hne hk
      have hstep : getAL (kv :: l) k' = getAL l k' := by
        rw [getAL, List.find?_cons, hfalse]
        rfl
      rw [hstep]
      exact ih
    · have hb : (!(kv.1 == k)) = true := by simp [hk]
      rw [hb, if_pos rfl]
      cases hkk : (kv.1 == k') with
      | true =>
        rw [getAL, getAL, List.find?_cons, List.find?_cons, hkk]
      | false =>
        have h1 : getAL (kv :: List.filter (fun kv => !(kv.1 == k)) l) k'
            = getAL (delAL l k) k' := by
          rw [getAL, List.find?_cons, hkk]
          rfl
        have h2 : getAL (kv :: l) k' = getAL l k' := by
          rw [getAL, List.find?_cons, hkk]
          rfl
        rw [h1, h2]
        exact ih

/-- Counterexample to C5 at a concrete input: a two-frame state whose store
    holds both frame records and the three layer blobs of frame 1.  After
    deleteFrame of frame 1, the three layer blobs are gone from the layers
    collection, but the frames collection still holds frame 1's record
    (deleteFrame never touches the frames store: StorageManager has no
    frame-delete operation), so the claim that neither the frame record nor
    the blobs remain stored is false. -/
theorem deleteFrame_record_persists :
    (deleteFrame
        ⟨[⟨"f0", 0, ⟨"a0", "b0", "c0"⟩⟩, ⟨"f1", 1, ⟨"a1", "b1", "c1"⟩⟩], 0, 8,
          ⟨some ⟨[("a1", [1]), ("b1", [2]), ("c1", [3])],
            [("f0", ⟨"f0", 0, ⟨"a0", "b0", "c0"⟩⟩),
             ("f1", ⟨"f1", 1, ⟨"a1", "b1", "c1"⟩⟩)]⟩⟩⟩
        1).storage.db
      = some ⟨[], [("f0", ⟨"f0", 0, ⟨"a0", "b0", "c0"⟩⟩),
          ("f1", ⟨"f1", 1, ⟨"a1", "b1", "c1"⟩⟩)]⟩ := by
  decide

/-- C5 amended: with more than one frame and a valid index, deleteFrame on
    an initialized store deletes the frame's three layer blobs from the
    layers collection (their keys resolve to nothing afterwards), but does
    not destroy the frame's persisted record: the frames collection is left
    entirely unchanged. -/
theorem deleteFrame_destroys_layers_only (st : AppState) (i : ℕ) (f : Frame)
    (db : Store)
    (hlen : 1 < st.frames.length) (hf : st.frames.get? i = some f)
    (hdb : st.storage.db = some db)
    (hb : ¬ f.layers.background = "") (hl : ¬ f.layers.lineart = "")
    (hc : ¬ f.layers.color = "") :
    ∃ db' : Store,
      (deleteFrame st i).storage.db = some db' ∧
        getAL db'.layers f.layers.background = none ∧
        getAL db'.layers f.layers.lineart = none ∧
        getAL db'.layers f.layers.color = none ∧
        db'.frames = db.frames := by
  refine ⟨{ db with layers := delAL (delAL (delAL db.layers f.layers.background)
      f.layers.lineart) f.layers.color }, ?_, ?_, ?_, ?_, rfl⟩
  · rw [deleteFrame, if_neg (by omega)]
    simp only [hf, StorageManager.deleteLayer, hdb, LayerIds.get, if_neg hb,
      if_neg hl, if_neg hc]
    split <;> rfl
  · by_cases h1 : f.layers.background = f.layers.color
    · rw [h1]
      exact getAL_delAL_self _ _
    · rw [getAL_delAL_other _ _ _ h1]
      by_cases h2 : f.layers.background = f.layers.lineart
      · rw [h2]
        exact getAL_delAL_self _ _
      · rw [getAL_delAL_other _ _ _ h2]
        exact getAL_delAL_self _ _
  · by_cases h1 : f.layers.lineart = f.layers.color
    · rw [h1]
      exact getAL_delAL_self _ _
    · rw [getAL_delAL_other _ _ _ h1]
      exact getAL_delAL_self _ _
  · exact getAL_delAL_self _ _

/-- Witness for the amended C5 at the concrete two-frame input of the
    counterexample. -/
theorem deleteFrame_destroys_layers_only_witness :
    (1 < ((⟨[⟨"f0", 0, ⟨"a0", "b0", "c0"⟩⟩, ⟨"f1", 1, ⟨"a1", "b1", "c1"⟩⟩], 0, 8,
        ⟨some ⟨[("a1", [1]), ("b1", [2]), ("c1", [3])],
          [("f0", ⟨"f0", 0, ⟨"a0", "b0", "c0"⟩⟩),
           ("f1", ⟨"f1", 1, ⟨"a1", "b1", "c1"⟩⟩)]⟩⟩⟩ : AppState)).frames.length) ∧
      (∃ db' : Store,
        (deleteFrame (⟨[⟨"f0", 0, ⟨"a0", "b0", "c0"⟩⟩, ⟨"f1", 1, ⟨"a1", "b1", "c1"⟩⟩], 0, 8,
            ⟨some ⟨[("a1", [1]), ("b1", [2]), ("c1", [3])],
              [("f0", ⟨"f0", 0, ⟨"a0", "b0", "c0"⟩⟩),
               ("f1", ⟨"f1", 1, ⟨"a1", "b1", "c1"⟩⟩)]⟩⟩⟩ : AppState) 1).storage.db
            = some db' ∧
          getAL db'.layers "a1" = none ∧
          getAL db'.layers "b1" = none ∧
          getAL db'.layers "c1" = none ∧
          db'.frames = [("f0", ⟨"f0", 0, ⟨"a0", "b0", "c0"⟩⟩),
            ("f1", ⟨"f1", 1, ⟨"a1", "b1", "c1"⟩⟩)]) :=
  ⟨by decide,
    deleteFrame_destroys_layers_only
      ⟨[⟨"f0", 0, ⟨"a0", "b0", "c0"⟩⟩, ⟨"f1", 1, ⟨"a1", "b1", "c1"⟩⟩], 0, 8,
        ⟨some ⟨[("a1", [1]), ("b1", [2]), ("c1", [3])],
          [("f0", ⟨"f0", 0, ⟨"a0", "b0", "c0"⟩⟩),
           ("f1", ⟨"f1", 1, ⟨"a1", "b1", "c1"⟩⟩)]⟩⟩⟩
      1 ⟨"f1", 1, ⟨"a1", "b1", "c1"⟩⟩ ⟨[("a1", [1]), ("b1", [2]), ("c1", [3])],
        [("f0", ⟨"f0", 0, ⟨"a0", "b0", "c0"⟩⟩),
         ("f1", ⟨"f1", 1, ⟨"a1", "b1", "c1"⟩⟩)]⟩
      (by decide) (by decide) (by decide) (by decide) (by decide) (by decide)⟩

theorem JNum.fin_add (a b : ℚ) : JNum.fin a + JNum.fin b = JNum.fin (a + b) := rfl

theorem JNum.fin_sub (a b : ℚ) : JNum.fin a - JNum.fin b = JNum.fin (a - b) := rfl

theorem JNum.fin_mul (a b : ℚ) : JNum.fin a * JNum.fin b = JNum.fin (a * b) := rfl

theorem JNum.fin_div (a b : ℚ) :
    JNum.fin a / JNum.fin b = if b = 0 then JNum.nan else JNum.fin (a / b) := rfl

theorem JNum.nan_add (x : JNum) : JNum.nan + x = JNum.nan := by cases x <;> rfl

theorem JNum.add_nan (x : JNum) : x + JNum.nan = JNum.nan := by cases x <;> rfl

theorem JNum.nan_sub (x : JNum) : JNum.nan - x = JNum.nan := by cases x <;> rfl

theorem JNum.sub_nan (x : JNum) : x - JNum.nan = JNum.nan := by cases x <;> rfl

theorem JNum.nan_mul (x : JNum) : JNum.nan * x = JNum.nan := by cases x <;> rfl

theorem JNum.mul_nan (x : JNum) : x * JNum.nan = JNum.nan := by cases x <;> rfl

theorem JNum.nan_div (x : JNum) : JNum.nan / x = JNum.nan := by cases x <;> rfl

theorem JNum.div_nan (x : JNum) : x / JNum.nan = JNum.nan := by cases x <;> rfl

theorem ratSqrt_zero : ratSqrt 0 = 0 := by
  rw [ratSqrt]
  norm_num

theorem getT_coincident : getT (JNum.fin 0) ⟨5, 7, 1, 0, 0, 0⟩ ⟨5, 7, 1, 0, 0, 0⟩
    = JNum.fin 0 := by
  rw [getT]
  norm_num [JNum.fin_sub, jsPow, ratSqrt_zero, JNum.fin_add]

theorem splinePoint_coincident_nan :
    (splinePoint ⟨5, 7, 1, 0, 0, 0⟩ ⟨5, 7, 1, 0, 0, 0⟩ ⟨5, 7, 1, 0, 0, 0⟩ ⟨5, 7, 1, 0, 0, 0⟩
        (JNum.fin 0) (JNum.fin 0) (JNum.fin 0) (JNum.fin 0) 10 0).1 = JNum.nan ∧
      (splinePoint ⟨5, 7, 1, 0, 0, 0⟩ ⟨5, 7, 1, 0, 0, 0⟩ ⟨5, 7, 1, 0, 0, 0⟩ ⟨5, 7, 1, 0, 0, 0⟩
        (JNum.fin 0) (JNum.fin 0) (JNum.fin 0) (JNum.fin 0) 10 0).2.1 = JNum.nan := by
  rw [splinePoint]
  norm_num [JNum.fin_sub, JNum.fin_add, JNum.fin_mul, JNum.fin_div,
    JNum.nan_add, JNum.add_nan, JNum.nan_sub, JNum.sub_nan,
    JNum.nan_mul, JNum.mul_nan, JNum.nan_div, JNum.div_nan]

/-- C6 (what the code actually renders): for every four control samples,
    brush settings and context state, drawSpline builds one 11-point
    polyline path and strokes it exactly once; the single stroke event
    carries the round cap and line width size * p2.pressure, the value of
    the last lineWidth assignment (i = 10, where the interpolated pressure
    equals p2's).  The ten per-sub-segment lineWidth assignments inside the
    loop are dead: Canvas2D samples lineWidth at the one stroke() call, so
    no sub-segment is drawn as its own round-capped segment with an
    interpolated width, contrary to the claim. -/
theorem drawSpline_single_stroke (p0 p1 p2 p3 : Point) (s : BrushSettings)
    (st : CanvasState) :
    (interp st (drawSpline p0 p1 p2 p3 s)).map (fun e => e.width)
        = [JNum.fin (s.size * p2.pressure)] ∧
      (interp st (drawSpline p0 p1 p2 p3 s)).map (fun e => e.path.length) = [11] ∧
      (interp st (drawSpline p0 p1 p2 p3 s)).map (fun e => e.cap) = ["round"] := by
  refine ⟨?_, rfl, rfl⟩
  have h : (interp st (drawSpline p0 p1 p2 p3 s)).map (fun e => e.width)
      = [JNum.fin (s.size * (p1.pressure
          + ((10 : ℕ) : ℚ) / ((10 : ℕ) : ℚ) * (p2.pressure - p1.pressure)))] := rfl
  have harith : s.size * (p1.pressure
      + ((10 : ℕ) : ℚ) / ((10 : ℕ) : ℚ) * (p2.pressure - p1.pressure))
      = s.size * p2.pressure := by
    push_cast
    ring
  rw [h, harith]

/-- C10: a stroke whose four most recent samples coincide (all at (5, 7))
    makes the centripetal parameter computation yield equal knot values
    (every knot is 0, so the blend denominator t2 - t1 is zero), the
    barycentric blend divides zero by zero, and the evaluated curve
    coordinates are the non-finite NaN marker; no guard exists, so the NaN
    coordinates are drawn: the moveTo command of the spline carries them. -/
theorem drawSpline_coincident_nan :
    getT (JNum.fin 0) ⟨5, 7, 1, 0, 0, 0⟩ ⟨5, 7, 1, 0, 0, 0⟩
        = getT (getT (JNum.fin 0) ⟨5, 7, 1, 0, 0, 0⟩ ⟨5, 7, 1, 0, 0, 0⟩)
            ⟨5, 7, 1, 0, 0, 0⟩ ⟨5, 7, 1, 0, 0, 0⟩ ∧
      getT (getT (JNum.fin 0) ⟨5, 7, 1, 0, 0, 0⟩ ⟨5, 7, 1, 0, 0, 0⟩)
            ⟨5, 7, 1, 0, 0, 0⟩ ⟨5, 7, 1, 0, 0, 0⟩
          - getT (JNum.fin 0) ⟨5, 7, 1, 0, 0, 0⟩ ⟨5, 7, 1, 0, 0, 0⟩ = JNum.fin 0 ∧
      (splinePoint ⟨5, 7, 1, 0, 0, 0⟩ ⟨5, 7, 1, 0, 0, 0⟩ ⟨5, 7, 1, 0, 0, 0⟩
          ⟨5, 7, 1, 0, 0, 0⟩ (JNum.fin 0) (JNum.fin 0) (JNum.fin 0) (JNum.fin 0)
          10 0).1 = JNum.nan ∧
      (splinePoint ⟨5, 7, 1, 0, 0, 0⟩ ⟨5, 7, 1, 0, 0, 0⟩ ⟨5, 7, 1, 0, 0, 0⟩
          ⟨5, 7, 1, 0, 0, 0⟩ (JNum.fin 0) (JNum.fin 0) (JNum.fin 0) (JNum.fin 0)
          10 0).2.1 = JNum.nan ∧
      CanvasCmd.moveTo JNum.nan JNum.nan
        ∈ drawSpline ⟨5, 7, 1, 0, 0, 0⟩ ⟨5, 7, 1, 0, 0, 0⟩ ⟨5, 7, 1, 0, 0, 0⟩
            ⟨5, 7, 1, 0, 0, 0⟩ ⟨ToolType.Brush, 10, "#000000", 1, 1⟩ := by
  refine ⟨?_, ?_, splinePoint_coincident_nan.1, splinePoint_coincident_nan.2, ?_⟩
  · rw [getT_coincident, getT_coincident]
  · rw [getT_coincident, getT_coincident, JNum.fin_sub]
    norm_num
  · rw [drawSpline]
    simp only [getT_coincident, List.mem_append, List.mem_flatMap, List.mem_range]
    refine Or.inl (Or.inr ⟨0, by norm_num, ?_⟩)
    simp only [if_pos rfl, splinePoint_coincident_nan.1, splinePoint_coincident_nan.2,
      List.mem_cons]
    norm_num
